import Mathlib

/-!
Formal model of the arke-reprocess-api worker (TypeScript sources:
src/resolver.ts, src/materializer.ts, src/manifest-builder.ts,
src/reprocessor.ts, src/ipfs-client.ts, src/index.ts, src/permissions.ts,
src/types.ts), as a shallow embedding in Lean 4, together with theorems
about the behavioural properties of the pipeline.

Modelling conventions:
- JavaScript strings are Lean `String`; thrown `Error(message)` values are
  `Except String` errors carrying the message (src/index.ts dispatches on
  the message text, so the message is the observable error content).
- The external collaborators (the IPFS wrapper service binding, the R2
  staging bucket, the batch queue) are parameters, collected in `Env`.
  Entity fetches are modelled as a pure function of the identifier (the
  store is read-only for this worker).  Content downloads additionally
  receive a call-attempt index (the `clock` threaded through `World`), so
  that transient failures of individual external calls are expressible.
- Externally visible effects (staging-bucket writes and queue sends) are
  recorded in an explicit `World` state threaded through the pipeline;
  async/await sequencing becomes explicit state passing, and the parallel
  awaits (`Promise.all`) become in-order folds, which preserves the
  publish-after-all-materializations ordering that the theorems are about.
- The TypeScript field `r2_prefix` of the queue message is named `r2_pfx`
  here, and `stagingPrefix` parameters are named `stagingPfx`.
-/

deriving instance DecidableEq for Except

/-! ## Data model (src/types.ts) -/

/-- CustomPrompts (src/types.ts): optional per-phase prompt overrides. -/
structure CustomPrompts where
  general : Option String := none
  reorganization : Option String := none
  pinax : Option String := none
  description : Option String := none
  cheimarros : Option String := none
  deriving DecidableEq

/-- IPFSEntity (src/types.ts): the entity record returned by the wrapper API. -/
structure IPFSEntity where
  pi : String
  ver : Nat
  ts : String
  manifest_cid : String
  prev_cid : Option String := none
  components : List (String × String)
  children_pi : List String
  parent_pi : Option String := none
  note : Option String := none
  deriving DecidableEq

/-- FileInfo (src/types.ts): staged-file metadata produced by materialization. -/
structure FileInfo where
  r2_key : String
  file_name : String
  file_size : Nat
  content_type : String
  deriving DecidableEq

/-- MaterializedEntity (src/types.ts): entity metadata plus staged files. -/
structure MaterializedEntity where
  pi : String
  tip : String
  ver : Nat
  children_pi : List String
  parent_pi : Option String := none
  files : List FileInfo
  total_bytes : Nat
  deriving DecidableEq

/-- ProcessingConfig (src/types.ts); `reorganize` is an optional boolean there. -/
structure ProcessingConfig where
  ocr : Bool
  reorganize : Option Bool := none
  pinax : Bool
  cheimarros : Bool
  describe : Bool
  deriving DecidableEq

/-- QueueFileInfo (src/types.ts): a file entry of a manifest directory group. -/
structure QueueFileInfo where
  r2_key : String
  logical_path : String
  file_name : String
  file_size : Nat
  content_type : String
  cid : Option String := none
  deriving DecidableEq

/-- DirectoryGroup (src/types.ts): one manifest entry per resolved entity. -/
structure DirectoryGroup where
  directory_path : String
  processing_config : ProcessingConfig
  file_count : Nat
  total_bytes : Nat
  files : List QueueFileInfo
  existing_pi : Option String := none
  existing_children_paths : Option (List String) := none
  existing_parent_path : Option String := none
  deriving DecidableEq

/-- BatchManifest (src/types.ts): the batch descriptor handed to the pipeline. -/
structure BatchManifest where
  batch_id : String
  directories : List DirectoryGroup
  total_files : Nat
  total_bytes : Nat
  deriving DecidableEq

/-- QueueMessage (src/types.ts).  The TypeScript field `r2_prefix` is named
`r2_pfx` here; the constant `metadata: \x7b\x7d` field is omitted. -/
structure QueueMessage where
  batch_id : String
  manifest_r2_key : String
  r2_pfx : String
  uploader : String
  root_path : String
  total_files : Nat
  total_bytes : Nat
  uploaded_at : String
  finalized_at : String
  reprocessing_mode : Bool
  custom_prompts : Option CustomPrompts := none
  custom_note : Option String := none
  deriving DecidableEq

/-- ReprocessRequest (src/types.ts): the orchestrator's input. -/
structure ReprocessRequest where
  pi : String
  phases : List String
  cascade : Bool
  stopAtPI : String
  customPrompts : Option CustomPrompts := none
  customNote : Option String := none
  deriving DecidableEq

/-- ReprocessResponse (src/types.ts): the orchestrator's success output. -/
structure ReprocessResponse where
  batch_id : String
  entities_queued : Nat
  entity_pis : List String
  status_url : String
  deriving DecidableEq

/-! ## External collaborators and effect state -/

/-- Result of the wrapper service's entity-fetch HTTP call, as seen by
`IPFSWrapperClient.getEntity` (src/ipfs-client.ts): an ok JSON entity, a 404,
or another non-ok status with a response body. -/
inductive EntityResp where
  | ok (e : IPFSEntity)
  | notFound
  | fail (status : Nat) (body : String)
  deriving DecidableEq

/-- Result of the wrapper service's content-download HTTP call, as seen by
`IPFSWrapperClient.downloadContent` (src/ipfs-client.ts). -/
inductive DownloadResp where
  | ok (content : String)
  | notFound
  | fail (status : Nat) (body : String)
  deriving DecidableEq

/-- Env (src/types.ts): the worker environment.  Service bindings are
modelled as response functions.  `download` takes the global call-attempt
index first (see `World.clock`), so a transiently failing download is
expressible; `putOk` says whether a staging write succeeds; `queueSendOk`
says whether the queue send succeeds; `stringifyManifest` models
`JSON.stringify` on the manifest (an opaque platform serializer). -/
structure Env where
  fetchEntity : String → EntityResp
  download : Nat → String → DownloadResp
  putOk : String → String → Bool
  queueSendOk : Bool
  stringifyManifest : BatchManifest → String

/-- World: the externally visible effects of one request.  `staged` is the
list of (key, content) writes to the staging bucket in order; `queued` is
the list of queue messages sent; `clock` counts content-download calls. -/
structure World where
  staged : List (String × String)
  queued : List QueueMessage
  clock : Nat
  deriving DecidableEq

/-! ## IPFSWrapperClient (src/ipfs-client.ts) -/

/-- IPFSWrapperClient.getEntity: throws `Entity not found: pi` on 404 and
`Failed to fetch entity pi: status body` on other non-ok statuses. -/
def getEntity (env : Env) (pi : String) : Except String IPFSEntity :=
  match env.fetchEntity pi with
  | .ok e => .ok e
  | .notFound => .error (("Entity not found: ") ++ pi)
  | .fail status body =>
      .error (("Failed to fetch entity ") ++ pi ++ (": ") ++ toString status ++ (" ") ++ body)

/-- IPFSWrapperClient.downloadContent: throws `Content not found: cid` on 404
and `Failed to download content cid: status body` otherwise.  `n` is the
call-attempt index (the `World.clock` at the moment of the call). -/
def downloadContent (env : Env) (n : Nat) (cid : String) : Except String String :=
  match env.download n cid with
  | .ok content => .ok content
  | .notFound => .error (("Content not found: ") ++ cid)
  | .fail status body =>
      .error (("Failed to download content ") ++ cid ++ (": ") ++ toString status ++ (" ") ++ body)

/-! ## EntityResolver (src/resolver.ts) -/

/-- NO_PARENT_SENTINEL (src/resolver.ts line 38): ULID of all zeros. -/
def NO_PARENT_SENTINEL : String := "00000000000000000000000000"

/-- maxDepth (src/resolver.ts line 33): the cascade safety ceiling. -/
def maxDepth : Nat := 100

/-- Message of the error thrown when the hop ceiling is exhausted
(src/resolver.ts line 56). -/
def maxDepthMsg (pi : String) : String :=
  ("Max depth ") ++ toString maxDepth ++ (" reached while resolving parent chain for ") ++ pi

/-- Stop condition of the cascade walk (src/resolver.ts line 44):
`!entity.parent_pi || entity.parent_pi === NO_PARENT_SENTINEL ||
entity.parent_pi === stopAtPI`.  JavaScript truthiness makes an absent or
empty-string parent falsy. -/
def shouldStop (stopAtPI : String) : Option String → Bool
  | none => true
  | some p => p == ("") || p == NO_PARENT_SENTINEL || p == stopAtPI

/-- Cascade loop of `resolveEntitiesForReprocessing` (src/resolver.ts lines
40-53).  The fuel is `maxDepth - depth`; fuel 0 is the `depth >= maxDepth`
throw after the loop (line 55-57).  `pi0` is the original target (used in
the error message); `acc` is the `entities` array accumulated so far. -/
def walkChain (env : Env) (stopAtPI pi0 : String) : Nat → String → List String → Except String (List String)
  | 0, _, _ => .error (maxDepthMsg pi0)
  | fuel+1, currentPI, acc =>
    match getEntity env currentPI with
    | .error msg => .error msg
    | .ok entity =>
      match entity.parent_pi with
      | none => .ok acc
      | some p =>
        if p == ("") || p == NO_PARENT_SENTINEL || p == stopAtPI then .ok acc
        else walkChain env stopAtPI pi0 fuel p (acc ++ [p])

/-- resolveEntitiesForReprocessing (src/resolver.ts): `[pi]` when cascade is
false, otherwise the bottom-up parent chain starting from `pi`. -/
def resolveEntitiesForReprocessing (pi : String) (cascade : Bool) (stopAtPI : String) (env : Env) :
    Except String (List String) :=
  if !cascade then .ok [pi]
  else walkChain env stopAtPI pi maxDepth pi [pi]

/-! ## ComponentMaterializer (src/materializer.ts) -/

/-- Last `.`-separated segment of a filename, lower-cased: models
`filename.split('.').pop()?.toLowerCase()` (src/materializer.ts line 228);
for a name with no dot, `split` yields the whole name as its only segment. -/
def lastDotSegment : List Char → List Char → List Char
  | [], cur => cur.reverse
  | c :: cs, cur => if c == ('.') then lastDotSegment cs [] else lastDotSegment cs (c :: cur)

/-- Extension-to-content-type table (src/materializer.ts lines 230-242). -/
def typeMap : List (String × String) :=
  [("md", "text/markdown"), ("txt", "text/plain"), ("json", "application/json"),
   ("pdf", "application/pdf"), ("jpg", "image/jpeg"), ("jpeg", "image/jpeg"),
   ("png", "image/png"), ("gif", "image/gif"), ("html", "text/html"),
   ("xml", "application/xml"), ("csv", "text/csv")]

/-- inferContentType (src/materializer.ts lines 227-245): unknown extensions
default to `application/octet-stream`. -/
def inferContentType (filename : String) : String :=
  let ext := String.mk ((lastDotSegment filename.data []).map Char.toLower)
  (typeMap.lookup ext).getD ("application/octet-stream")

/-- Clock tick of one content-download call. -/
def bumpClock (w : World) : World := { w with clock := w.clock + 1 }

/-- Record one staging-bucket write. -/
def addStaged (w : World) (kv : String × String) : World := { w with staged := w.staged ++ [kv] }

/-- Component download/stage loop of `materializeEntityToStaging`
(src/materializer.ts lines 184-209): for each `(componentKey, cid)` download
the content (consuming one clock tick) and write it to
`stagingPfx ++ pi ++ "/" ++ componentKey`; file size is the UTF-8 byte
length (`new TextEncoder().encode(content).length`).  The `Promise.all` is
modelled as an in-order fold; the first failure aborts. -/
def materializeComponents (env : Env) (pi stagingPfx : String) :
    List (String × String) → World → Except String (List FileInfo) × World
  | [], w => (.ok [], w)
  | (componentKey, cid) :: rest, w =>
    match downloadContent env w.clock cid with
    | .error msg => (.error msg, bumpClock w)
    | .ok content =>
      let r2Key := stagingPfx ++ pi ++ ("/") ++ componentKey
      if env.putOk r2Key content then
        match materializeComponents env pi stagingPfx rest (addStaged (bumpClock w) (r2Key, content)) with
        | (.error msg, w3) => (.error msg, w3)
        | (.ok files, w3) =>
          (.ok ({ r2_key := r2Key, file_name := componentKey,
                  file_size := content.utf8ByteSize,
                  content_type := inferContentType componentKey } :: files), w3)
      else (.error (("Failed to write to staging: ") ++ r2Key), bumpClock w)

/-- materializeEntityToStaging (src/materializer.ts lines 162-222): fetch the
entity, download and stage every component, and return the entity metadata
with the staged file list and total byte count. -/
def materializeEntityToStaging (pi stagingPfx : String) (env : Env) (w : World) :
    Except String MaterializedEntity × World :=
  match getEntity env pi with
  | .error msg => (.error msg, w)
  | .ok entity =>
    match materializeComponents env pi stagingPfx entity.components w with
    | (.error msg, w1) => (.error msg, w1)
    | (.ok files, w1) =>
      (.ok { pi := entity.pi, tip := entity.manifest_cid, ver := entity.ver,
             children_pi := entity.children_pi, parent_pi := entity.parent_pi,
             files := files,
             total_bytes := files.foldl (fun sum f => sum + f.file_size) 0 }, w1)

/-! ## ManifestBuilder (src/manifest-builder.ts) -/

/-- Loop body of `buildReprocessingManifest` (src/manifest-builder.ts lines
488-532): the DirectoryGroup built for one materialized entity.  Note the
JavaScript conditional `entity.parent_pi ? "/"+parent : undefined` treats an
empty-string parent as absent. -/
def buildDirGroup (phases : List String) (entity : MaterializedEntity) : DirectoryGroup :=
  let files : List QueueFileInfo := entity.files.map (fun f =>
    { r2_key := f.r2_key, logical_path := f.file_name, file_name := f.file_name,
      file_size := f.file_size, content_type := f.content_type })
  { directory_path := ("/") ++ entity.pi,
    processing_config :=
      { ocr := false,
        reorganize := some false,
        pinax := phases.contains ("pinax"),
        cheimarros := phases.contains ("cheimarros"),
        describe := phases.contains ("description") },
    file_count := files.length,
    total_bytes := entity.total_bytes,
    files := files,
    existing_pi := some entity.pi,
    existing_children_paths := some (entity.children_pi.map (fun childPI => ("/") ++ childPI)),
    existing_parent_path :=
      match entity.parent_pi with
      | some p => if p == ("") then none else some (("/") ++ p)
      | none => none }

/-- buildReprocessingManifest (src/manifest-builder.ts lines 480-548): one
DirectoryGroup per entity (in order), with totals recomputed as sums over
the groups (`directories.reduce(...)`).  The `stagingPfx` parameter is
received but unused, as in the source. -/
def buildReprocessingManifest (entities : List MaterializedEntity) (phases : List String)
    (batchId : String) (stagingPfx : String) : BatchManifest :=
  let directories := entities.map (buildDirGroup phases)
  { batch_id := batchId,
    directories := directories,
    total_files := directories.foldl (fun sum d => sum + d.file_count) 0,
    total_bytes := directories.foldl (fun sum d => sum + d.total_bytes) 0 }

/-! ## Orchestrator (src/reprocessor.ts) -/

/-- publishReprocessingBatch (src/reprocessor.ts lines 111-146): write the
manifest JSON to `stagingPfx ++ "_manifest.json"`, then send the queue
message.  `now` stands for `new Date().toISOString()`. -/
def publishReprocessingBatch (manifest : BatchManifest) (stagingPfx : String)
    (customPrompts : Option CustomPrompts) (env : Env) (now : String) (w : World) :
    Except String Unit × World :=
  let manifestKey := stagingPfx ++ ("_manifest.json")
  let manifestJson := env.stringifyManifest manifest
  if env.putOk manifestKey manifestJson then
    let w1 : World := { w with staged := w.staged ++ [(manifestKey, manifestJson)] }
    let queueMessage : QueueMessage :=
      { batch_id := manifest.batch_id,
        manifest_r2_key := manifestKey,
        r2_pfx := stagingPfx,
        uploader := "reprocessor-api",
        root_path := "/",
        total_files := manifest.total_files,
        total_bytes := manifest.total_bytes,
        uploaded_at := now,
        finalized_at := now,
        reprocessing_mode := true,
        custom_prompts := customPrompts }
    if env.queueSendOk then (.ok (), { w1 with queued := w1.queued ++ [queueMessage] })
    else (.error (("Failed to send queue message for batch ") ++ manifest.batch_id), w1)
  else (.error (("Failed to write to staging: ") ++ manifestKey), w)

/-- Materialization of all resolved entities (src/reprocessor.ts lines
59-61): `Promise.all(entityPIs.map(pi => materializeEntityToStaging(...)))`,
modelled as an in-order fold; the first failure aborts the batch. -/
def materializeAll (entityPIs : List String) (stagingPfx : String) (env : Env) (w : World) :
    Except String (List MaterializedEntity) × World :=
  match entityPIs with
  | [] => (.ok [], w)
  | pi :: rest =>
    match materializeEntityToStaging pi stagingPfx env w with
    | (.error msg, w1) => (.error msg, w1)
    | (.ok me, w1) =>
      match materializeAll rest stagingPfx env w1 with
      | (.error msg, w2) => (.error msg, w2)
      | (.ok mes, w2) => (.ok (me :: mes), w2)

/-- processReprocessingRequest (src/reprocessor.ts lines 29-106): resolve,
materialize everything, build the manifest, publish.  `ulid` stands for the
generated ULID (`generateULID()`), `now` for `new Date().toISOString()`. -/
def processReprocessingRequest (request : ReprocessRequest) (env : Env) (ulid now : String)
    (w : World) : Except String ReprocessResponse × World :=
  let batchId := ("reprocess_") ++ ulid
  let stagingPfx := ("reprocessing/") ++ batchId ++ ("/")
  match resolveEntitiesForReprocessing request.pi request.cascade request.stopAtPI env with
  | .error msg => (.error msg, w)
  | .ok entityPIs =>
    match materializeAll entityPIs stagingPfx env w with
    | (.error msg, w1) => (.error msg, w1)
    | (.ok materializedEntities, w1) =>
      let manifest := buildReprocessingManifest materializedEntities request.phases batchId stagingPfx
      match publishReprocessingBatch manifest stagingPfx request.customPrompts env now w1 with
      | (.error msg, w2) => (.error msg, w2)
      | (.ok _, w2) =>
        (.ok { batch_id := batchId,
               entities_queued := entityPIs.length,
               entity_pis := entityPIs,
               status_url := ("https://orchestrator.arke.institute/status/") ++ batchId }, w2)

/-! ## Permission check (src/permissions.ts) -/

/-- Collection info of a permissions response (the collections worker's
JSON), as consumed by src/permissions.ts. -/
structure Collection where
  rootPi : String
  title : String
  deriving DecidableEq

/-- PiPermissions: the collections worker's response body. -/
structure PiPermissions where
  canEdit : Bool
  collection : Option Collection := none
  deriving DecidableEq

/-- PermissionCheckResult (src/permissions.ts). -/
structure PermissionCheckResult where
  allowed : Bool
  reason : Option String := none
  cascadeStopPi : Option String := none
  deriving DecidableEq

/-- checkReprocessPermission (src/permissions.ts lines 26-75), as a function
of the collections worker's response: `none` stands for a non-ok response or
a thrown error; otherwise `canEdit` gates access and `collection?.rootPi`
becomes the cascade boundary. -/
def checkReprocessPermission (resp : Option PiPermissions) : PermissionCheckResult :=
  match resp with
  | none => { allowed := false, reason := some ("Permission check failed") }
  | some permissions =>
    if permissions.canEdit then
      { allowed := true, cascadeStopPi := permissions.collection.map Collection.rootPi }
    else
      match permissions.collection with
      | some c =>
        { allowed := false,
          reason := some (("Not authorized to reprocess entities in collection \"") ++ c.title ++ ("\"")) }
      | none => { allowed := false, reason := some ("Not authorized to reprocess this entity") }

/-! ## HTTP handler (src/index.ts) -/

/-- Options object of the request body (src/index.ts / README). -/
structure ReqOptions where
  stop_at_pi : Option String := none
  custom_prompts : Option CustomPrompts := none
  custom_note : Option String := none
  deriving DecidableEq

/-- Parsed JSON body of a reprocess request; `none` fields are absent JSON
fields.  (The untyped-JSON validation branches of src/index.ts that reject
wrongly-typed fields are not representable in this typed model; the
presence/emptiness checks are.) -/
structure ReqBody where
  pi : Option String := none
  phases : Option (List String) := none
  cascade : Option Bool := none
  options : Option ReqOptions := none
  deriving DecidableEq

/-- JavaScript truthiness of a possibly-absent string: absent and
empty-string values are falsy. -/
def jsTruthy : Option String → Bool
  | none => false
  | some s => !(s == (""))

/-- Crockford base32 alphabet of the PI regex `[0-9A-HJKMNP-TV-Z]`
(src/index.ts line 91). -/
def crockfordChars : List Char :=
  [('0'), ('1'), ('2'), ('3'), ('4'), ('5'), ('6'), ('7'), ('8'), ('9'),
   ('A'), ('B'), ('C'), ('D'), ('E'), ('F'), ('G'), ('H'), ('J'), ('K'),
   ('M'), ('N'), ('P'), ('Q'), ('R'), ('S'), ('T'), ('V'), ('W'), ('X'),
   ('Y'), ('Z')]

/-- piRegex test (src/index.ts line 91): 26 characters, all Crockford. -/
def isValidPI (s : String) : Bool :=
  s.length == 26 && s.data.all (fun c => crockfordChars.contains c)

/-- validPhases (src/index.ts line 100). -/
def validPhases : List String := [("pinax"), ("cheimarros"), ("description")]

/-- Effective cascade boundary selection (src/index.ts lines 129-139):
explicit `stop_at_pi` if truthy, else the permission check's
`cascadeStopPi` if truthy, else the absolute-root sentinel.  JavaScript
truthiness: an empty-string value falls through to the next tier. -/
def effectiveStopAtPI (explicitStop : Option String) (cascadeStop : Option String) : String :=
  if jsTruthy explicitStop then explicitStop.getD ("")
  else if jsTruthy cascadeStop then cascadeStop.getD ("")
  else NO_PARENT_SENTINEL

/-- Char-list version of a `startsWith` check (helper for `strIncludes`). -/
def charsStartWith : List Char → List Char → Bool
  | _, [] => true
  | [], _ :: _ => false
  | c :: cs, s :: ss => c == s && charsStartWith cs ss

/-- Char-list version of an infix check (helper for `strIncludes`). -/
def charsInclude (sub : List Char) : List Char → Bool
  | [] => sub.isEmpty
  | c :: cs => charsStartWith (c :: cs) sub || charsInclude sub cs

/-- JavaScript `message.includes(sub)` (src/index.ts lines 204, 211). -/
def strIncludes (s sub : String) : Bool :=
  charsInclude sub.data s.data

/-- Outcome of `handleReprocessRequest`: a 200 with the orchestrator's
response, or a failure with HTTP status and the structured
(error, message) body. -/
inductive HandlerResult where
  | success (resp : ReprocessResponse)
  | failure (status : Nat) (error : String) (message : String)
  deriving DecidableEq

/-- handleReprocessRequest (src/index.ts lines 55-224).  `body?` is the
parsed JSON body (`none` = JSON parse failure); `permResp` is the
collections worker's response; `ulid`/`now` stand for the generated ULID
and timestamps.  The catch block maps thrown messages containing
`Entity not found` or `Content not found` to 404 and everything else to a
500 INTERNAL_ERROR. -/
def handleReprocessRequest (bodyOpt : Option ReqBody) (permResp : Option PiPermissions)
    (env : Env) (ulid now : String) (w : World) : HandlerResult × World :=
  match bodyOpt with
  | none => (.failure 400 ("VALIDATION_ERROR") ("Invalid JSON in request body"), w)
  | some body =>
    if !(jsTruthy body.pi) then
      (.failure 400 ("VALIDATION_ERROR") ("Missing required field: pi"), w)
    else
      let piStr := body.pi.getD ("")
      match body.phases with
      | none => (.failure 400 ("VALIDATION_ERROR") ("Missing or invalid field: phases (must be non-empty array)"), w)
      | some phases =>
        if phases.isEmpty then
          (.failure 400 ("VALIDATION_ERROR") ("Missing or invalid field: phases (must be non-empty array)"), w)
        else if !(isValidPI piStr) then
          (.failure 400 ("VALIDATION_ERROR") ("Invalid PI format (must be 26-character ULID)"), w)
        else if !((phases.filter (fun p => !(validPhases.contains p))).isEmpty) then
          (.failure 400 ("VALIDATION_ERROR") ("Invalid phases"), w)
        else
          let permCheck := checkReprocessPermission permResp
          if !permCheck.allowed then
            (.failure 403 ("FORBIDDEN") ((permCheck.reason).getD ("Not authorized to reprocess this entity")), w)
          else
            let cascade := (body.cascade).getD false
            let explicitStop := (body.options).bind ReqOptions.stop_at_pi
            let customPrompts := (body.options).bind ReqOptions.custom_prompts
            let customNote := (body.options).bind ReqOptions.custom_note
            let effective := effectiveStopAtPI explicitStop permCheck.cascadeStopPi
            if jsTruthy explicitStop
                && !(explicitStop.getD ("") == NO_PARENT_SENTINEL)
                && !(isValidPI (explicitStop.getD (""))) then
              (.failure 400 ("VALIDATION_ERROR") ("Invalid stop_at_pi format (must be 26-character ULID)"), w)
            else
              match processReprocessingRequest
                  { pi := piStr, phases := phases, cascade := cascade, stopAtPI := effective,
                    customPrompts := customPrompts, customNote := customNote } env ulid now w with
              | (.ok result, w1) => (.success result, w1)
              | (.error msg, w1) =>
                if strIncludes msg ("Entity not found") then
                  (.failure 404 ("NOT_FOUND") msg, w1)
                else if strIncludes msg ("Content not found") then
                  (.failure 404 ("NOT_FOUND") msg, w1)
                else
                  (.failure 500 ("INTERNAL_ERROR") msg, w1)

/-! ## Error kinds and their response codes (src/index.ts, §7 of the spec) -/

/-- Error taxonomy of the spec (§7). -/
inductive ErrorKind where
  | validationError
  | notFoundError
  | depthExceeded
  | permissionDenied
  | downstreamUnavailable
  | internalError
  deriving DecidableEq

/-- HTTP status of a handler outcome (200 on success). -/
def statusOfResult (r : HandlerResult × World) : Nat :=
  match r.1 with
  | .success _ => 200
  | .failure status _ _ => status

/-- Empty effect state at the start of a request. -/
def worldEmpty : World := { staged := [], queued := [], clock := 0 }

/-- A well-formed 26-character Crockford PI used in scenarios. -/
def ulidA : String := "01JC9X7H6M3K8QRSTVWXYZ0123"

/-- A second well-formed PI used in scenarios. -/
def ulidB : String := "01JC9X7H6M3K8QRSTVWXYZ0124"

/-- A valid request body (single-entity mode, one valid phase). -/
def bodyOkSingle : ReqBody :=
  { pi := some ulidA, phases := some [("description")], cascade := some false }

/-- A valid request body with cascade enabled. -/
def bodyOkCascade : ReqBody :=
  { pi := some ulidA, phases := some [("description")], cascade := some true }

/-- A body missing the required `pi` field. -/
def bodyBad : ReqBody := {}

/-- Permissions response: editing allowed, no collection. -/
def permOk : Option PiPermissions := some { canEdit := true }

/-- Permissions response: editing denied. -/
def permDenied : Option PiPermissions := some { canEdit := false }

/-- Environment whose entity store has no entities (fetch always 404s). -/
def envNotFound : Env :=
  { fetchEntity := fun _ => .notFound,
    download := fun _ _ => .ok (""),
    putOk := fun _ _ => true,
    queueSendOk := true,
    stringifyManifest := fun _ => ("") }

/-- Environment whose ancestor graph loops: every entity reports parent
`ulidB`, so a cascade walk never reaches a stop condition. -/
def envLoop : Env :=
  { fetchEntity := fun p =>
      .ok { pi := p, ver := 1, ts := "", manifest_cid := "", components := [],
            children_pi := [], parent_pi := some ulidB },
    download := fun _ _ => .ok (""),
    putOk := fun _ _ => true,
    queueSendOk := true,
    stringifyManifest := fun _ => ("") }

/-- A one-component entity used by staging/download failure scenarios. -/
def entOneComp (pi : String) : IPFSEntity :=
  { pi := pi, ver := 1, ts := "", manifest_cid := "tip", components := [(("description.md"), ("cid1"))],
    children_pi := [], parent_pi := none }

/-- Environment whose staging bucket rejects every write. -/
def envPutFail : Env :=
  { fetchEntity := fun p => .ok (entOneComp p),
    download := fun _ _ => .ok ("DATA"),
    putOk := fun _ _ => false,
    queueSendOk := true,
    stringifyManifest := fun _ => ("") }

/-- Environment whose entity store answers with a non-404 failure. -/
def envFetchFail : Env :=
  { fetchEntity := fun _ => .fail 503 ("Service Unavailable"),
    download := fun _ _ => .ok (""),
    putOk := fun _ _ => true,
    queueSendOk := true,
    stringifyManifest := fun _ => ("") }

/-- Response code produced for each error kind, computed by running the
embedded handler on a representative scenario for that kind:
ValidationError and PermissionDenied come from the handler's direct 400/403
branches; the other four arise from pipeline errors routed through the
handler's catch block (src/index.ts lines 200-223). -/
def responseCodeFor : ErrorKind → Nat
  | .validationError =>
      statusOfResult (handleReprocessRequest (some bodyBad) permOk envNotFound ("u") ("t") worldEmpty)
  | .permissionDenied =>
      statusOfResult (handleReprocessRequest (some bodyOkSingle) permDenied envNotFound ("u") ("t") worldEmpty)
  | .notFoundError =>
      statusOfResult (handleReprocessRequest (some bodyOkSingle) permOk envNotFound ("u") ("t") worldEmpty)
  | .depthExceeded =>
      statusOfResult (handleReprocessRequest (some bodyOkCascade) permOk envLoop ("u") ("t") worldEmpty)
  | .downstreamUnavailable =>
      statusOfResult (handleReprocessRequest (some bodyOkSingle) permOk envPutFail ("u") ("t") worldEmpty)
  | .internalError =>
      statusOfResult (handleReprocessRequest (some bodyOkSingle) permOk envFetchFail ("u") ("t") worldEmpty)

/-! ## Further scenario environments used by the theorems -/

/-- Environment with the two-hop chain A → B, where B's parent is S. -/
def envAB : Env :=
  { fetchEntity := fun p =>
      if p == ("A") then
        .ok { pi := "A", ver := 1, ts := "", manifest_cid := "", components := [],
              children_pi := [], parent_pi := some ("B") }
      else if p == ("B") then
        .ok { pi := "B", ver := 1, ts := "", manifest_cid := "", components := [],
              children_pi := [], parent_pi := some ("S") }
      else .notFound,
    download := fun _ _ => .ok (""),
    putOk := fun _ _ => true,
    queueSendOk := true,
    stringifyManifest := fun _ => ("") }

/-- Environment with the scenario-A chain T → P → G, G having no parent. -/
def envTPG : Env :=
  { fetchEntity := fun p =>
      if p == ("T") then
        .ok { pi := "T", ver := 1, ts := "", manifest_cid := "", components := [],
              children_pi := [], parent_pi := some ("P") }
      else if p == ("P") then
        .ok { pi := "P", ver := 1, ts := "", manifest_cid := "", components := [],
              children_pi := [], parent_pi := some ("G") }
      else if p == ("G") then
        .ok { pi := "G", ver := 1, ts := "", manifest_cid := "", components := [],
              children_pi := [], parent_pi := none }
      else .notFound,
    download := fun _ _ => .ok (""),
    putOk := fun _ _ => true,
    queueSendOk := true,
    stringifyManifest := fun _ => ("") }

/-- Environment whose entities form one linear chain of 100 ancestors above
the empty-string target: the entity named by n letters `a` has the entity
named by n+1 letters `a` as parent, up to length 100, which has none. -/
def envDeepChain : Env :=
  { fetchEntity := fun s =>
      .ok { pi := s, ver := 0, ts := "", manifest_cid := "", components := [],
            children_pi := [],
            parent_pi := if s.length < 100 then some (s.push ('a')) else none },
    download := fun _ _ => .ok (""),
    putOk := fun _ _ => true,
    queueSendOk := true,
    stringifyManifest := fun _ => ("") }

/-- The 100 ancestors of the empty-string target in `envDeepChain`. -/
def deepAnc : List String := (List.range 100).map (fun n => String.mk (List.replicate (n+1) ('a')))

/-- Environment whose content downloads fail transiently: the very first
download call of a request fails with a 500, every later call succeeds. -/
def envTransient : Env :=
  { fetchEntity := fun p => if p == ("A") then .ok (entOneComp ("A")) else .notFound,
    download := fun n _ => if n == 0 then .fail 500 ("transient") else .ok ("data"),
    putOk := fun _ _ => true,
    queueSendOk := true,
    stringifyManifest := fun _ => ("") }

/-- Entity whose recorded parent identifier is the empty string. -/
def entEmptyParent : MaterializedEntity :=
  { pi := "E", tip := "t", ver := 1, children_pi := [], parent_pi := some (""),
    files := [], total_bytes := 0 }

/-- Entity with a parent and two children, used as a builder witness input. -/
def entPC : MaterializedEntity :=
  { pi := "E", tip := "t", ver := 1, children_pi := [("C1"), ("C2")], parent_pi := some ("P"),
    files := [], total_bytes := 0 }

/-- Entity with no files, no children and no parent (builder witness input). -/
def entW : MaterializedEntity :=
  { pi := "A", tip := "t", ver := 1, children_pi := [], parent_pi := none,
    files := [], total_bytes := 0 }

/-- Minimal request whose target entity is missing (orchestrator witness). -/
def reqW : ReprocessRequest := { pi := "A", phases := [], cascade := false, stopAtPI := "" }

/-! ## Statement-device definitions -/

/-- The ancestor graph seen from `cur` is the chain `anc` (leaf to root):
each listed ancestor is the fetchable parent of its predecessor, none of
them triggers the stop condition when reached as a parent, and the last
entity's own parent does trigger it (the walk's natural stop). -/
def isChainTo (env : Env) (stopAtPI : String) : String → List String → Bool
  | cur, [] =>
    match getEntity env cur with
    | .ok entity => shouldStop stopAtPI entity.parent_pi
    | .error _ => false
  | cur, p :: rest =>
    match getEntity env cur with
    | .ok entity =>
      entity.parent_pi == some p
        && !(shouldStop stopAtPI (some p))
        && isChainTo env stopAtPI p rest
    | .error _ => false

/-- First non-empty value of an optional string, with a fallback. -/
def nonEmptyOr (o : Option String) (fallback : String) : String :=
  match o with
  | some s => if s = ("") then fallback else s
  | none => fallback

/-- Boundary precedence rule in the spec's words (§4.4), amended for
JavaScript truthiness: a present-but-empty value falls through to the next
tier.  Compared against the code's `effectiveStopAtPI`. -/
def effectiveStopSpec (explicitStop cascadeStop : Option String) : String :=
  nonEmptyOr explicitStop (nonEmptyOr cascadeStop NO_PARENT_SENTINEL)

/-! ## Resolver lemmas -/

/-- Proof-device form of the cascade loop: the list of parents pushed after
the current entity (without the accumulator).  `walkChain_eq_walkTail`
relates it to the source-shaped `walkChain`. -/
def walkTail (env : Env) (stopAtPI pi0 : String) : Nat → String → Except String (List String)
  | 0, _ => .error (maxDepthMsg pi0)
  | fuel+1, currentPI =>
    match getEntity env currentPI with
    | .error msg => .error msg
    | .ok entity =>
      match entity.parent_pi with
      | none => .ok []
      | some p =>
        if p == ("") || p == NO_PARENT_SENTINEL || p == stopAtPI then .ok []
        else Except.map (fun t => p :: t) (walkTail env stopAtPI pi0 fuel p)

theorem walkChain_eq_walkTail (env : Env) (stopAtPI pi0 : String) :
    ∀ (f : Nat) (cur : String) (acc : List String),
    walkChain env stopAtPI pi0 f cur acc =
      Except.map (fun t => acc ++ t) (walkTail env stopAtPI pi0 f cur) := by
  intro f
  induction f with
  | zero => intro cur acc; rfl
  | succ n ih =>
    intro cur acc
    simp only [walkChain, walkTail]
    cases hE : getEntity env cur with
    | error msg => rfl
    | ok entity =>
      dsimp only
      cases hp : entity.parent_pi with
      | none => simp [Except.map]
      | some p =>
        dsimp only
        cases hc : (p == ("") || p == NO_PARENT_SENTINEL || p == stopAtPI) with
        | true => simp [Except.map]
        | false =>
          simp only [Bool.false_eq_true, if_false]
          rw [ih]
          cases hT : walkTail env stopAtPI pi0 n p with
          | error msg => simp [Except.map]
          | ok t => simp [Except.map]

theorem walkTail_zero (env : Env) (stopAtPI pi0 cur : String) :
    walkTail env stopAtPI pi0 0 cur = .error (maxDepthMsg pi0) := rfl

theorem walkTail_succ_eq (env : Env) (stopAtPI pi0 : String) (n : Nat) (cur : String) :
    walkTail env stopAtPI pi0 (n+1) cur =
      match getEntity env cur with
      | .error msg => .error msg
      | .ok entity =>
        match entity.parent_pi with
        | none => .ok []
        | some p =>
          if p == ("") || p == NO_PARENT_SENTINEL || p == stopAtPI then .ok []
          else Except.map (fun t => p :: t) (walkTail env stopAtPI pi0 n p) := rfl

theorem walkTail_succ_ok {env : Env} {stopAtPI pi0 : String} {n : Nat} {cur : String}
    {t : List String} (h : walkTail env stopAtPI pi0 (n+1) cur = .ok t) :
    t = [] ∨ ∃ p t2, t = p :: t2 ∧
      (p == ("") || p == NO_PARENT_SENTINEL || p == stopAtPI) = false ∧
      walkTail env stopAtPI pi0 n p = .ok t2 := by
  rw [walkTail_succ_eq] at h
  cases hE : getEntity env cur with
  | error msg => simp only [hE] at h; exact absurd h (by simp)
  | ok entity =>
    simp only [hE] at h
    cases hp : entity.parent_pi with
    | none =>
      simp only [hp] at h
      injection h with h2
      exact Or.inl h2.symm
    | some p =>
      simp only [hp] at h
      cases hc : (p == ("") || p == NO_PARENT_SENTINEL || p == stopAtPI) with
      | true =>
        simp only [hc, if_true] at h
        injection h with h2
        exact Or.inl h2.symm
      | false =>
        simp only [hc, Bool.false_eq_true, if_false] at h
        cases hT : walkTail env stopAtPI pi0 n p with
        | error msg => simp only [hT, Except.map] at h; exact absurd h (by simp)
        | ok t2 =>
          simp only [hT, Except.map] at h
          injection h with h2
          exact Or.inr ⟨p, t2, h2.symm, hc, hT⟩

theorem walkTail_len {env : Env} {stopAtPI pi0 : String} :
    ∀ {n : Nat} {cur : String} {t : List String},
    walkTail env stopAtPI pi0 n cur = .ok t → t.length < n := by
  intro n
  induction n with
  | zero => intro cur t h; exact absurd h (by simp [walkTail_zero])
  | succ m ih =>
    intro cur t h
    rcases walkTail_succ_ok h with h0 | ⟨p, t2, ht, _, h2⟩
    · simp [h0]
    · have := ih h2
      simp [ht]
      omega

theorem walkTail_mono {env : Env} {stopAtPI pi0 : String} :
    ∀ {n : Nat} {cur : String} {t : List String},
    walkTail env stopAtPI pi0 n cur = .ok t → walkTail env stopAtPI pi0 (n+1) cur = .ok t := by
  intro n
  induction n with
  | zero => intro cur t h; exact absurd h (by simp [walkTail_zero])
  | succ m ih =>
    intro cur t h
    rw [walkTail_succ_eq] at h
    rw [walkTail_succ_eq]
    cases hE : getEntity env cur with
    | error msg => simp only [hE] at h; exact absurd h (by simp)
    | ok entity =>
      simp only [hE] at h ⊢
      cases hp : entity.parent_pi with
      | none => simp only [hp] at h ⊢; exact h
      | some p =>
        simp only [hp] at h ⊢
        cases hc : (p == ("") || p == NO_PARENT_SENTINEL || p == stopAtPI) with
        | true => simp only [hc, if_true] at h ⊢; exact h
        | false =>
          simp only [hc, Bool.false_eq_true, if_false] at h ⊢
          cases hT : walkTail env stopAtPI pi0 m p with
          | error msg => simp only [hT, Except.map] at h; exact absurd h (by simp)
          | ok t2 =>
            simp only [hT, Except.map] at h
            rw [ih hT]
            simp only [Except.map]
            exact h

theorem walkTail_mono_le {env : Env} {stopAtPI pi0 : String} {m n : Nat} {cur : String}
    {t : List String} (hmn : m ≤ n) (h : walkTail env stopAtPI pi0 m cur = .ok t) :
    walkTail env stopAtPI pi0 n cur = .ok t := by
  induction hmn with
  | refl => exact h
  | step h2 ih => exact walkTail_mono ih

theorem walkTail_uniq {env : Env} {stopAtPI pi0 : String} {m n : Nat} {cur : String}
    {t t2 : List String} (h : walkTail env stopAtPI pi0 m cur = .ok t)
    (h2 : walkTail env stopAtPI pi0 n cur = .ok t2) : t = t2 := by
  rcases Nat.le_total m n with hle | hle
  · have := walkTail_mono_le hle h
    rw [this] at h2
    injection h2
  · have := walkTail_mono_le hle h2
    rw [this] at h
    injection h with h3
    exact h3.symm

theorem walkTail_suffix {env : Env} {stopAtPI pi0 : String} :
    ∀ {i n : Nat} {cur : String} {t : List String} {x : String},
    walkTail env stopAtPI pi0 n cur = .ok t → (cur :: t).get? i = some x →
    walkTail env stopAtPI pi0 (n - i) x = .ok (t.drop i) := by
  intro i
  induction i with
  | zero =>
    intro n cur t x h hg
    simp only [List.get?] at hg
    injection hg with hg2
    rw [← hg2]
    simpa using h
  | succ j ih =>
    intro n cur t x h hg
    simp only [List.get?] at hg
    cases n with
    | zero => exact absurd h (by simp [walkTail_zero])
    | succ m =>
      rcases walkTail_succ_ok h with h0 | ⟨p, t2, ht, _, h2⟩
      · rw [h0] at hg; simp [List.get?] at hg
      · rw [ht] at hg ⊢
        have : m + 1 - (j + 1) = m - j := by omega
        rw [this]
        simpa using ih h2 hg

theorem walkTail_mem {env : Env} {stopAtPI pi0 : String} :
    ∀ {n : Nat} {cur : String} {t : List String},
    walkTail env stopAtPI pi0 n cur = .ok t → ∀ x ∈ t,
    (x == ("") || x == NO_PARENT_SENTINEL || x == stopAtPI) = false := by
  intro n
  induction n with
  | zero => intro cur t h; exact absurd h (by simp [walkTail_zero])
  | succ m ih =>
    intro cur t h x hx
    rcases walkTail_succ_ok h with h0 | ⟨p, t2, ht, hc, h2⟩
    · rw [h0] at hx; exact absurd hx (by simp)
    · rw [ht] at hx
      rcases List.mem_cons.mp hx with hxp | hxt
    
      · rw [hxp]; exact hc
      · exact ih h2 x hxt

theorem resolve_cascade_ok {env : Env} {pi stopAtPI : String} {l : List String}
    (h : resolveEntitiesForReprocessing pi true stopAtPI env = .ok l) :
    ∃ t, walkTail env stopAtPI pi maxDepth pi = .ok t ∧ l = pi :: t := by
  simp only [resolveEntitiesForReprocessing, Bool.not_true, Bool.false_eq_true, if_false] at h
  rw [walkChain_eq_walkTail] at h
  cases hT : walkTail env stopAtPI pi maxDepth pi with
  | error msg => rw [hT] at h; exact absurd h (by simp [Except.map])
  | ok t =>
    rw [hT] at h
    simp only [Except.map] at h
    injection h with h2
    exact ⟨t, rfl, by rw [← h2]; rfl⟩

theorem walkTail_of_chain {env : Env} {stopAtPI pi0 : String} :
    ∀ {anc : List String} {f : Nat} {cur : String},
    isChainTo env stopAtPI cur anc = true → anc.length < f →
    walkTail env stopAtPI pi0 f cur = .ok anc := by
  intro anc
  induction anc with
  | nil =>
    intro f cur hchain hlen
    cases f with
    | zero => exact absurd hlen (by simp)
    | succ f2 =>
      rw [walkTail_succ_eq]
      simp only [isChainTo] at hchain
      cases hE : getEntity env cur with
      | error msg => simp only [hE] at hchain; exact absurd hchain (by simp)
      | ok entity =>
        simp only [hE] at hchain
        simp only [hE]
        cases hp : entity.parent_pi with
        | none => simp only [hp]
        | some p =>
          simp only [hp] at hchain ⊢
          simp only [shouldStop] at hchain
          simp only [hchain, if_true]
  | cons p rest ih =>
    intro f cur hchain hlen
    cases f with
    | zero => exact absurd hlen (by simp)
    | succ f2 =>
      simp only [isChainTo] at hchain
      cases hE : getEntity env cur with
      | error msg => simp only [hE] at hchain; exact absurd hchain (by simp)
      | ok entity =>
        simp only [hE, Bool.and_eq_true] at hchain
        obtain ⟨⟨hpp, hns⟩, hrest⟩ := hchain
        have hpp2 : entity.parent_pi = some p := by simpa using hpp
        have hc : (p == ("") || p == NO_PARENT_SENTINEL || p == stopAtPI) = false := by
          simpa [shouldStop] using hns
        rw [walkTail_succ_eq]
        simp only [hE, hpp2, hc, Bool.false_eq_true, if_false]
        have hlen2 : rest.length < f2 := by
          simp only [List.length_cons] at hlen
          omega
        rw [ih hrest hlen2]
        simp [Except.map]

theorem chain_last {env : Env} {stopAtPI : String} :
    ∀ {anc : List String} {cur : String}, isChainTo env stopAtPI cur anc = true →
    ∃ lastId entity, (cur :: anc).getLast? = some lastId ∧
      getEntity env lastId = .ok entity ∧ shouldStop stopAtPI entity.parent_pi = true := by
  intro anc
  induction anc with
  | nil =>
    intro cur hchain
    simp only [isChainTo] at hchain
    cases hE : getEntity env cur with
    | error msg => simp only [hE] at hchain; exact absurd hchain (by simp)
    | ok entity =>
      simp only [hE] at hchain
      exact ⟨cur, entity, rfl, hE, hchain⟩
  | cons p rest ih =>
    intro cur hchain
    simp only [isChainTo] at hchain
    cases hE : getEntity env cur with
    | error msg => simp only [hE] at hchain; exact absurd hchain (by simp)
    | ok entity =>
      simp only [hE, Bool.and_eq_true] at hchain
      obtain ⟨lastId, e2, hl, hg, hs⟩ := ih hchain.2
      exact ⟨lastId, e2, by rw [List.getLast?_cons_cons]; exact hl, hg, hs⟩

theorem walkTail_forever {env : Env} {stopAtPI pi0 : String} {c : Nat → String} :
    ∀ (f j : Nat),
    (∀ k, k < f → ∃ e, getEntity env (c (j + k)) = .ok e ∧
      e.parent_pi = some (c (j + k + 1)) ∧ shouldStop stopAtPI e.parent_pi = false) →
    walkTail env stopAtPI pi0 f (c j) = .error (maxDepthMsg pi0) := by
  intro f
  induction f with
  | zero => intro j hsteps; exact walkTail_zero env stopAtPI pi0 (c j)
  | succ m ih =>
    intro j hsteps
    obtain ⟨e, hE, hp, hns⟩ := hsteps 0 (Nat.succ_pos m)
    have hE2 : getEntity env (c j) = .ok e := by simpa using hE
    have hp2 : e.parent_pi = some (c (j + 1)) := by simpa using hp
    have hc : (c (j+1) == ("") || c (j+1) == NO_PARENT_SENTINEL || c (j+1) == stopAtPI) = false := by
      rw [hp2] at hns
      simpa [shouldStop] using hns
    rw [walkTail_succ_eq]
    simp only [hE2, hp2, hc, Bool.false_eq_true, if_false]
    have hrec : walkTail env stopAtPI pi0 m (c (j+1)) = .error (maxDepthMsg pi0) := by
      apply ih (j+1)
      intro k hk
      obtain ⟨e2, h1, h2, h3⟩ := hsteps (k+1) (by omega)
      refine ⟨e2, ?_, ?_, h3⟩
      · rw [show j + 1 + k = j + (k+1) from by omega]
        exact h1
      · rw [show j + 1 + k + 1 = j + (k+1) + 1 from by omega]
        exact h2
    rw [hrec]
    simp [Except.map]

/-! ## Materialization effect lemmas -/

theorem bumpClock_queued (w : World) : (bumpClock w).queued = w.queued := rfl

theorem bumpClock_staged (w : World) : (bumpClock w).staged = w.staged := rfl

theorem addStaged_queued (w : World) (kv : String × String) : (addStaged w kv).queued = w.queued := rfl

theorem addStaged_staged (w : World) (kv : String × String) :
    (addStaged w kv).staged = w.staged ++ [kv] := rfl

theorem materializeComponents_effects {env : Env} {pi stagingPfx : String} :
    ∀ {comps : List (String × String)} {w : World} {r : Except String (List FileInfo)} {w2 : World},
    materializeComponents env pi stagingPfx comps w = (r, w2) →
    w2.queued = w.queued ∧
    ∀ kv ∈ w2.staged, kv ∈ w.staged ∨ ∃ ck, kv.1 = stagingPfx ++ pi ++ ("/") ++ ck := by
  intro comps
  induction comps with
  | nil =>
    intro w r w2 h
    simp only [materializeComponents, Prod.mk.injEq] at h
    obtain ⟨h1, h2⟩ := h
    subst h2
    exact ⟨rfl, fun kv hkv => Or.inl hkv⟩
  | cons kc rest ih =>
    intro w r w2 h
    obtain ⟨componentKey, cid⟩ := kc
    simp only [materializeComponents] at h
    cases hD : downloadContent env w.clock cid with
    | error msg =>
      simp only [hD, Prod.mk.injEq] at h
      obtain ⟨h1, h2⟩ := h
      subst h2
      exact ⟨rfl, fun kv hkv => Or.inl hkv⟩
    | ok content =>
      simp only [hD] at h
      cases hP : env.putOk (stagingPfx ++ pi ++ ("/") ++ componentKey) content with
      | false =>
        simp only [hP, Bool.false_eq_true, if_false, Prod.mk.injEq] at h
        obtain ⟨h1, h2⟩ := h
        subst h2
        exact ⟨rfl, fun kv hkv => Or.inl hkv⟩
      | true =>
        simp only [hP, if_true] at h
        cases hR : materializeComponents env pi stagingPfx rest
            (addStaged (bumpClock w) (stagingPfx ++ pi ++ ("/") ++ componentKey, content)) with
        | mk r3 w3 =>
          obtain ⟨hq, hs⟩ := ih hR
          have hq2 : w3.queued = w.queued := by
            rw [hq, addStaged_queued, bumpClock_queued]
          have hs2 : ∀ kv ∈ w3.staged, kv ∈ w.staged ∨
              ∃ ck, kv.1 = stagingPfx ++ pi ++ ("/") ++ ck := by
            intro kv hkv
            rcases hs kv hkv with hin | hex
            · rw [addStaged_staged, bumpClock_staged] at hin
              rcases List.mem_append.mp hin with hin2 | hin2
              · exact Or.inl hin2
              · simp only [List.mem_singleton] at hin2
                exact Or.inr ⟨componentKey, by rw [hin2]⟩
            · exact Or.inr hex
          rw [hR] at h
          cases r3 with
          | error msg =>
            simp only [Prod.mk.injEq] at h
            obtain ⟨h1, h2⟩ := h
            subst h2
            exact ⟨hq2, hs2⟩
          | ok files =>
            simp only [Prod.mk.injEq] at h
            obtain ⟨h1, h2⟩ := h
            subst h2
            exact ⟨hq2, hs2⟩

theorem materializeEntity_effects {env : Env} {pi stagingPfx : String} {w : World}
    {r : Except String MaterializedEntity} {w2 : World}
    (h : materializeEntityToStaging pi stagingPfx env w = (r, w2)) :
    w2.queued = w.queued ∧
    ∀ kv ∈ w2.staged, kv ∈ w.staged ∨ ∃ ck, kv.1 = stagingPfx ++ pi ++ ("/") ++ ck := by
  simp only [materializeEntityToStaging] at h
  cases hE : getEntity env pi with
  | error msg =>
    simp only [hE, Prod.mk.injEq] at h
    obtain ⟨h1, h2⟩ := h
    subst h2
    exact ⟨rfl, fun kv hkv => Or.inl hkv⟩
  | ok entity =>
    simp only [hE] at h
    cases hR : materializeComponents env pi stagingPfx entity.components w with
    | mk r3 w3 =>
      obtain ⟨hq, hs⟩ := materializeComponents_effects hR
      rw [hR] at h
      cases r3 with
      | error msg =>
        simp only [Prod.mk.injEq] at h
        obtain ⟨h1, h2⟩ := h
        subst h2
        exact ⟨hq, hs⟩
      | ok files =>
        simp only [Prod.mk.injEq] at h
        obtain ⟨h1, h2⟩ := h
        subst h2
        exact ⟨hq, hs⟩

theorem materializeAll_effects {env : Env} {stagingPfx : String} :
    ∀ {pis : List String} {w : World} {r : Except String (List MaterializedEntity)} {w2 : World},
    materializeAll pis stagingPfx env w = (r, w2) →
    w2.queued = w.queued ∧
    ∀ kv ∈ w2.staged, kv ∈ w.staged ∨ ∃ p ck, kv.1 = stagingPfx ++ p ++ ("/") ++ ck := by
  intro pis
  induction pis with
  | nil =>
    intro w r w2 h
    simp only [materializeAll, Prod.mk.injEq] at h
    obtain ⟨h1, h2⟩ := h
    subst h2
    exact ⟨rfl, fun kv hkv => Or.inl hkv⟩
  | cons pi rest ih =>
    intro w r w2 h
    simp only [materializeAll] at h
    cases hM : materializeEntityToStaging pi stagingPfx env w with
    | mk r3 w3 =>
      obtain ⟨hq3, hs3⟩ := materializeEntity_effects hM
      cases r3 with
      | error msg =>
        simp only [hM, Prod.mk.injEq] at h
        obtain ⟨h1, h2⟩ := h
        subst h2
        exact ⟨hq3, fun kv hkv => (hs3 kv hkv).imp id (fun hck =>
          ⟨pi, hck.choose, hck.choose_spec⟩)⟩
      | ok me =>
        cases hA : materializeAll rest stagingPfx env w3 with
        | mk r4 w4 =>
          obtain ⟨hq4, hs4⟩ := ih hA
          have hq : w4.queued = w.queued := by rw [hq4, hq3]
          have hs : ∀ kv ∈ w4.staged, kv ∈ w.staged ∨
              ∃ p ck, kv.1 = stagingPfx ++ p ++ ("/") ++ ck := by
            intro kv hkv
            rcases hs4 kv hkv with hin | hex
            · exact (hs3 kv hin).imp id (fun hck => ⟨pi, hck.choose, hck.choose_spec⟩)
            · exact Or.inr hex
          cases r4 with
          | error msg =>
            simp only [hM, hA, Prod.mk.injEq] at h
            obtain ⟨h1, h2⟩ := h
            subst h2
            exact ⟨hq, hs⟩
          | ok mes =>
            simp only [hM, hA, Prod.mk.injEq] at h
            obtain ⟨h1, h2⟩ := h
            subst h2
            exact ⟨hq, hs⟩

theorem string_data_append (a b : String) : (a ++ b).data = a.data ++ b.data := rfl

theorem component_key_ne_manifest_key (stagingPfx p ck : String) :
    stagingPfx ++ p ++ ("/") ++ ck ≠ stagingPfx ++ ("_manifest.json") := by
  intro h
  have hd := congrArg String.data h
  simp only [string_data_append, List.append_assoc] at hd
  have h2 := List.append_cancel_left hd
  have hs : ('/') ∈ (("/") : String).data := by decide
  have hmem : ('/') ∈ p.data ++ ((("/") : String).data ++ ck.data) :=
    List.mem_append.mpr (Or.inr (List.mem_append.mpr (Or.inl hs)))
  rw [h2] at hmem
  exact absurd hmem (by decide)

/-! ## Claim theorems: resolver -/

set_option maxRecDepth 10000
set_option maxHeartbeats 1000000

/-- C1 (amended): for a cascade=true resolution where the ancestor graph is a
finite chain of d ancestors ending at a natural stop, and d is below the hop
ceiling (`maxDepth` = 100), `resolveEntitiesForReprocessing` returns exactly
d+1 identifiers, leaf-first (target first, ancestors in increasing distance),
and the last entry's own parent triggers the stop condition (absent, empty,
sentinel, or stopAtPI). -/
theorem resolve_chain_returns_leaf_first_chain (env : Env) (pi stopAtPI : String)
    (anc : List String)
    (hchain : isChainTo env stopAtPI pi anc = true)
    (hlen : anc.length < maxDepth) :
    resolveEntitiesForReprocessing pi true stopAtPI env = .ok (pi :: anc) ∧
    (pi :: anc).length = anc.length + 1 ∧
    ∃ lastId entity, (pi :: anc).getLast? = some lastId ∧
      getEntity env lastId = .ok entity ∧ shouldStop stopAtPI entity.parent_pi = true := by
  refine ⟨?_, by simp, chain_last hchain⟩
  simp only [resolveEntitiesForReprocessing, Bool.not_true, Bool.false_eq_true, if_false]
  rw [walkChain_eq_walkTail]
  rw [walkTail_of_chain hchain hlen]
  simp [Except.map]

/-- C1 counterexample: over `envDeepChain` the target `""` has exactly 100
ancestors before the natural stop (`isChainTo` holds for the 100-element
chain `deepAnc`), yet the resolver raises the max-depth error instead of
returning the 101 identifiers the claim promises. -/
theorem chain_of_depth_100_exceeds_ceiling :
    isChainTo envDeepChain ("zz") ("") deepAnc = true ∧
    deepAnc.length = 100 ∧
    resolveEntitiesForReprocessing ("") true ("zz") envDeepChain = .error (maxDepthMsg ("")) := by
  refine ⟨by decide, by decide, by decide⟩

/-- Witness for C1's amended theorem at the spec's scenario A: the chain
T → P → G (G has no parent) with the sentinel as stop boundary resolves to
[T, P, G]. -/
theorem resolve_chain_returns_leaf_first_chain_witness :
    isChainTo envTPG NO_PARENT_SENTINEL ("T") [("P"), ("G")] = true ∧
    ([("P"), ("G")] : List String).length < maxDepth ∧
    resolveEntitiesForReprocessing ("T") true NO_PARENT_SENTINEL envTPG = .ok [("T"), ("P"), ("G")] :=
  ⟨by decide, by decide,
    (resolve_chain_returns_leaf_first_chain envTPG ("T") NO_PARENT_SENTINEL [("P"), ("G")]
      (by decide) (by decide)).1⟩

/-- C4: for every input and entity-fetch function, cyclic parent graphs
included, a list returned by `resolveEntitiesForReprocessing` has no
duplicates (a repeated identifier would make the walk deterministic-cyclic,
so it would exhaust the hop ceiling and return an error instead). -/
theorem resolve_result_nodup (pi : String) (cascade : Bool) (stopAtPI : String) (env : Env)
    (l : List String) (h : resolveEntitiesForReprocessing pi cascade stopAtPI env = .ok l) :
    l.Nodup := by
  cases cascade with
  | false =>
    simp only [resolveEntitiesForReprocessing, Bool.not_false, if_true] at h
    injection h with h2
    rw [← h2]
    simp
  | true =>
    obtain ⟨t, hT, rfl⟩ := resolve_cascade_ok h
    rw [List.nodup_iff_get?_ne_get?]
    intro i j hij hjlen heq
    cases hx : (pi :: t).get? j with
    | none =>
      rw [List.get?_eq_none] at hx
      omega
    | some x =>
      have hix : (pi :: t).get? i = some x := heq.trans hx
      have hsi := walkTail_suffix hT hix
      have hsj := walkTail_suffix hT hx
      have hdd := walkTail_uniq hsi hsj
      have hlen := congrArg List.length hdd
      simp only [List.length_drop] at hlen
      simp only [List.length_cons] at hjlen
      omega

/-- Witness for C4 at a two-hop cascade: [A, B] is duplicate-free. -/
theorem resolve_result_nodup_witness :
    resolveEntitiesForReprocessing ("A") true ("S") envAB = .ok [("A"), ("B")] ∧
    ([("A"), ("B")] : List String).Nodup :=
  ⟨by decide, resolve_result_nodup ("A") true ("S") envAB [("A"), ("B")] (by decide)⟩

/-- C9: if the parent walk meets no stop condition within `maxDepth` hops
(every hop fetches ok and continues), resolution fails with the max-depth
error message and returns no identifier list, partial or otherwise. -/
theorem unbounded_walk_raises_depth_exceeded (env : Env) (pi stopAtPI : String) (c : Nat → String)
    (hc0 : c 0 = pi)
    (hsteps : ∀ k, k < maxDepth → ∃ e, getEntity env (c k) = .ok e ∧
      e.parent_pi = some (c (k+1)) ∧ shouldStop stopAtPI e.parent_pi = false) :
    resolveEntitiesForReprocessing pi true stopAtPI env = .error (maxDepthMsg pi) := by
  simp only [resolveEntitiesForReprocessing, Bool.not_true, Bool.false_eq_true, if_false]
  rw [walkChain_eq_walkTail]
  have hwt := @walkTail_forever env stopAtPI pi c maxDepth 0
    (fun k hk => by
      obtain ⟨e, h1, h2, h3⟩ := hsteps k hk
      exact ⟨e, by simpa using h1, by simpa using h2, h3⟩)
  rw [hc0] at hwt
  rw [hwt]
  rfl

/-- Witness for C9: in `envLoop` every entity's parent is `ulidB`, so the
walk from `ulidB` loops and resolution reports the max-depth error. -/
theorem unbounded_walk_raises_depth_exceeded_witness :
    resolveEntitiesForReprocessing ulidB true NO_PARENT_SENTINEL envLoop = .error (maxDepthMsg ulidB) :=
  unbounded_walk_raises_depth_exceeded envLoop ulidB NO_PARENT_SENTINEL (fun _ => ulidB) rfl
    (fun k hk =>
      ⟨{ pi := ulidB, ver := 1, ts := "", manifest_cid := "", components := [],
         children_pi := [], parent_pi := some ulidB }, rfl, rfl, by decide⟩)

/-- C10: the stop boundary (and likewise the root sentinel) never appears in
a returned list unless it is the target itself: the walk breaks before
appending such a parent. -/
theorem stop_boundary_excluded (pi : String) (cascade : Bool) (stopAtPI : String) (env : Env)
    (l : List String) (h : resolveEntitiesForReprocessing pi cascade stopAtPI env = .ok l) :
    (stopAtPI ∈ l → stopAtPI = pi) ∧ (NO_PARENT_SENTINEL ∈ l → NO_PARENT_SENTINEL = pi) := by
  cases cascade with
  | false =>
    simp only [resolveEntitiesForReprocessing, Bool.not_false, if_true] at h
    injection h with h2
    constructor <;> intro hm <;> (rw [← h2] at hm; simpa using hm)
  | true =>
    obtain ⟨t, hT, rfl⟩ := resolve_cascade_ok h
    have hmem := walkTail_mem hT
    constructor
    · intro hm
      rcases List.mem_cons.mp hm with he | ht2
      · exact he
      · have hcontr := hmem _ ht2
        simp at hcontr
    · intro hm
      rcases List.mem_cons.mp hm with he | ht2
      · exact he
      · have hcontr := hmem _ ht2
        simp at hcontr

/-- Witness for C10: resolving A over the chain A → B (stop S) yields
[A, B], and S can only be in the list if it were the target. -/
theorem stop_boundary_excluded_witness :
    resolveEntitiesForReprocessing ("A") true ("S") envAB = .ok [("A"), ("B")] ∧
    (("S") ∈ ([("A"), ("B")] : List String) → ("S" : String) = ("A")) :=
  ⟨by decide, (stop_boundary_excluded ("A") true ("S") envAB [("A"), ("B")] (by decide)).1⟩

/-! ## Claim theorems: orchestrator, materializer, manifest, handler -/

/-- C2: if materialization of any resolved entity fails, the whole request
fails with that error and nothing is published: the queue is untouched,
every staging write performed is a component write under the batch prefix,
and in particular the manifest key is never written. -/
theorem publish_only_after_all_materializations
    (request : ReprocessRequest) (env : Env) (ulid now : String) (w0 : World)
    (entityPIs : List String) (msg : String) (w : World)
    (hres : resolveEntitiesForReprocessing request.pi request.cascade request.stopAtPI env
      = .ok entityPIs)
    (hmat : materializeAll entityPIs (("reprocessing/") ++ (("reprocess_") ++ ulid) ++ ("/")) env w0
      = (.error msg, w)) :
    processReprocessingRequest request env ulid now w0 = (.error msg, w) ∧
    w.queued = w0.queued ∧
    (∀ kv ∈ w.staged, kv ∈ w0.staged ∨
      ∃ p ck, kv.1 = (("reprocessing/") ++ (("reprocess_") ++ ulid) ++ ("/")) ++ p ++ ("/") ++ ck) ∧
    (∀ v, ((("reprocessing/") ++ (("reprocess_") ++ ulid) ++ ("/")) ++ ("_manifest.json"), v) ∈ w.staged →
      ((("reprocessing/") ++ (("reprocess_") ++ ulid) ++ ("/")) ++ ("_manifest.json"), v) ∈ w0.staged) := by
  obtain ⟨hq, hs⟩ := materializeAll_effects hmat
  refine ⟨?_, hq, hs, ?_⟩
  · simp only [processReprocessingRequest, hres, hmat]
  · intro v hv
    rcases hs _ hv with hin | hex
    · exact hin
    · obtain ⟨p, ck, hk⟩ := hex
      exact absurd hk.symm (component_key_ne_manifest_key
        (("reprocessing/") ++ (("reprocess_") ++ ulid) ++ ("/")) p ck)

/-- Witness for C2: the target entity of `reqW` is missing, so
materialization fails, the orchestrator propagates the not-found error, and
the world keeps its empty queue and staging. -/
theorem publish_only_after_all_materializations_witness :
    resolveEntitiesForReprocessing reqW.pi reqW.cascade reqW.stopAtPI envNotFound = .ok [("A")] ∧
    materializeAll [("A")] (("reprocessing/") ++ (("reprocess_") ++ ("u")) ++ ("/")) envNotFound worldEmpty
      = (.error (("Entity not found: ") ++ ("A")), worldEmpty) ∧
    (processReprocessingRequest reqW envNotFound ("u") ("t") worldEmpty
      = (.error (("Entity not found: ") ++ ("A")), worldEmpty) ∧
    worldEmpty.queued = worldEmpty.queued ∧
    (∀ kv ∈ worldEmpty.staged, kv ∈ worldEmpty.staged ∨
      ∃ p ck, kv.1 = (("reprocessing/") ++ (("reprocess_") ++ ("u")) ++ ("/")) ++ p ++ ("/") ++ ck) ∧
    (∀ v, ((("reprocessing/") ++ (("reprocess_") ++ ("u")) ++ ("/")) ++ ("_manifest.json"), v) ∈ worldEmpty.staged →
      ((("reprocessing/") ++ (("reprocess_") ++ ("u")) ++ ("/")) ++ ("_manifest.json"), v) ∈ worldEmpty.staged)) :=
  ⟨by decide, by decide,
   publish_only_after_all_materializations reqW envNotFound ("u") ("t") worldEmpty
     [("A")] (("Entity not found: ") ++ ("A")) worldEmpty (by decide) (by decide)⟩

/-- C3 (code bug): the code makes exactly one attempt per external call.
In `envTransient` the first download attempt fails and any second attempt
would succeed, yet materialization fails immediately with the propagated
download error — there is no retry, contradicting the documented 3-attempt
exponential-backoff policy (README.md). -/
theorem no_retry_on_transient_download_failure :
    envTransient.download 0 ("cid1") = .fail 500 ("transient") ∧
    envTransient.download 1 ("cid1") = .ok ("data") ∧
    materializeEntityToStaging ("A") ("reprocessing/b/") envTransient worldEmpty =
      (.error ("Failed to download content cid1: 500 transient"),
       { staged := [], queued := [], clock := 1 }) := by
  refine ⟨rfl, rfl, by decide⟩

/-- C5 counterexample: DepthExceeded and Internal are distinct error kinds
yet produce identical response codes, so the kinds are not pairwise
distinguishable by code. -/
theorem error_kinds_share_status_500 :
    ErrorKind.depthExceeded ≠ ErrorKind.internalError ∧
    responseCodeFor ErrorKind.depthExceeded = responseCodeFor ErrorKind.internalError := by
  refine ⟨by decide, by decide⟩

/-- C5 (amended): the codes actually produced are ValidationError→400,
PermissionDenied→403, NotFoundError→404, and a three-way collapse of
DepthExceeded, DownstreamUnavailable and Internal onto 500. -/
theorem error_kind_status_mapping :
    responseCodeFor ErrorKind.validationError = 400 ∧
    responseCodeFor ErrorKind.permissionDenied = 403 ∧
    responseCodeFor ErrorKind.notFoundError = 404 ∧
    responseCodeFor ErrorKind.depthExceeded = 500 ∧
    responseCodeFor ErrorKind.downstreamUnavailable = 500 ∧
    responseCodeFor ErrorKind.internalError = 500 := by
  refine ⟨by decide, by decide, by decide, by decide, by decide, by decide⟩

/-- C6 counterexample: a present-but-empty client `stop_at_pi` is falsy, so
the collection root wins over it, contradicting the claim's "client-supplied
stop_at_pi when present" precedence. -/
theorem empty_string_stop_overridden :
    (some ("")).isSome = true ∧
    effectiveStopAtPI (some ("")) (some ulidB) = ulidB ∧
    ulidB ≠ ("") := by
  refine ⟨rfl, by decide, by decide⟩

/-- C6 (amended): the effective boundary follows the precedence non-empty
explicit stop_at_pi, else non-empty collection root from the permission
check, else the absolute-root sentinel (JS truthiness: empty strings fall
through); and the permission check's boundary is `collection?.rootPi`
exactly when the response allows editing. -/
theorem effective_stop_precedence :
    (∀ explicitStop cascadeStop, effectiveStopAtPI explicitStop cascadeStop =
      effectiveStopSpec explicitStop cascadeStop) ∧
    (∀ resp, (checkReprocessPermission resp).cascadeStopPi =
      match resp with
      | some permissions =>
        if permissions.canEdit then permissions.collection.map Collection.rootPi else none
      | none => none) := by
  constructor
  · intro e c
    cases e with
    | some s =>
      by_cases hs : s = ("")
      · subst hs
        cases c with
        | none => simp [effectiveStopAtPI, effectiveStopSpec, jsTruthy, nonEmptyOr]
        | some r =>
          by_cases hr : r = ("")
          · subst hr
            simp [effectiveStopAtPI, effectiveStopSpec, jsTruthy, nonEmptyOr]
          · simp [effectiveStopAtPI, effectiveStopSpec, jsTruthy, nonEmptyOr, hr]
      · simp [effectiveStopAtPI, effectiveStopSpec, jsTruthy, nonEmptyOr, hs]
    | none =>
      cases c with
      | none => simp [effectiveStopAtPI, effectiveStopSpec, jsTruthy, nonEmptyOr]
      | some r =>
        by_cases hr : r = ("")
        · subst hr
          simp [effectiveStopAtPI, effectiveStopSpec, jsTruthy, nonEmptyOr]
        · simp [effectiveStopAtPI, effectiveStopSpec, jsTruthy, nonEmptyOr, hr]
  · intro resp
    cases resp with
    | none => rfl
    | some permissions =>
      cases hce : permissions.canEdit with
      | true => simp [checkReprocessPermission, hce]
      | false =>
        cases hcol : permissions.collection with
        | none => simp [checkReprocessPermission, hce, hcol]
        | some c2 => simp [checkReprocessPermission, hce, hcol]

/-- C7: every DirectoryGroup built by `buildReprocessingManifest` carries
exactly the processing config derived from the phases list, with `ocr` and
`reorganize` categorically disabled. -/
theorem processing_config_from_phases (entities : List MaterializedEntity) (phases : List String)
    (batchId stagingPfx : String) (d : DirectoryGroup)
    (hd : d ∈ (buildReprocessingManifest entities phases batchId stagingPfx).directories) :
    d.processing_config =
      { ocr := false, reorganize := some false,
        pinax := phases.contains ("pinax"),
        cheimarros := phases.contains ("cheimarros"),
        describe := phases.contains ("description") } := by
  simp only [buildReprocessingManifest] at hd
  rw [List.mem_map] at hd
  obtain ⟨entity, hmem, heq⟩ := hd
  rw [← heq]
  rfl

/-- Witness for C7 at the spec's scenario B: `phases = ["description"]`
yields config ocr:false, reorganize:false, pinax:false, cheimarros:false,
describe:true. -/
theorem processing_config_from_phases_witness :
    (buildDirGroup [("description")] entW) ∈
      (buildReprocessingManifest [entW] [("description")] ("b") ("p")).directories ∧
    (buildDirGroup [("description")] entW).processing_config =
      { ocr := false, reorganize := some false, pinax := false, cheimarros := false,
        describe := true } :=
  ⟨by decide,
   (processing_config_from_phases [entW] [("description")] ("b") ("p")
      (buildDirGroup [("description")] entW) (by decide)).trans (by decide)⟩

/-- C8 (amended): a DirectoryGroup's `existing_parent_path` is present iff
the source entity's parent is present and non-empty (JS truthiness), and
then equals "/"+parentId; `existing_children_paths` is the children mapped
to "/"+childId, so its length equals the children count. -/
theorem parent_and_children_paths (phases : List String) (entity : MaterializedEntity) :
    ((buildDirGroup phases entity).existing_parent_path.isSome = jsTruthy entity.parent_pi) ∧
    (∀ p, entity.parent_pi = some p → (p == ("")) = false →
      (buildDirGroup phases entity).existing_parent_path = some (("/") ++ p)) ∧
    ((buildDirGroup phases entity).existing_children_paths =
      some (entity.children_pi.map (fun childPI => ("/") ++ childPI))) ∧
    (∀ cps, (buildDirGroup phases entity).existing_children_paths = some cps →
      cps.length = entity.children_pi.length) := by
  refine ⟨?_, ?_, rfl, ?_⟩
  · cases hp : entity.parent_pi with
    | none => simp [buildDirGroup, hp, jsTruthy]
    | some p =>
      cases hq : (p == ("")) with
      | true => simp [buildDirGroup, hp, jsTruthy, hq]
      | false => simp [buildDirGroup, hp, jsTruthy, hq]
  · intro p hp hq
    simp [buildDirGroup, hp, hq]
  · intro cps hcps
    rw [show (buildDirGroup phases entity).existing_children_paths =
      some (entity.children_pi.map (fun childPI => ("/") ++ childPI)) from rfl] at hcps
    injection hcps with h2
    rw [← h2]
    simp

/-- Witness for C8: an entity with parent P and children C1, C2 gets parent
path "/P" and children paths derived from its children. -/
theorem parent_and_children_paths_witness :
    entPC.parent_pi = some ("P") ∧
    (buildDirGroup [] entPC).existing_parent_path = some (("/") ++ ("P")) ∧
    (buildDirGroup [] entPC).existing_children_paths =
      some (entPC.children_pi.map (fun childPI => ("/") ++ childPI)) :=
  ⟨rfl, (parent_and_children_paths [] entPC).2.1 ("P") rfl (by decide),
   (parent_and_children_paths [] entPC).2.2.1⟩

/-- C8 counterexample: an entity whose recorded parent is the empty string
has a present parent (`isSome`), yet its DirectoryGroup carries no
`existing_parent_path` (JS truthiness drops it). -/
theorem empty_parent_yields_no_parent_path :
    entEmptyParent.parent_pi = some ("") ∧
    (entEmptyParent.parent_pi).isSome = true ∧
    (buildDirGroup [("description")] entEmptyParent).existing_parent_path = none := by
  refine ⟨rfl, rfl, by decide⟩
